import Mathlib

/-!
Shallow embedding of src/longform.py: person-period ("long format")
expansion of per-patient survival records with grace-period censoring
and truncation.  Dates are modelled as integer day numbers (days since
1970-01-01); a pandas Timedelta of n days is the integer n.  The script
operates on a dataframe with one input row per patient (line 30
deduplicates, and the claims assume the input row is unique per
identifier); every operation from line 36 on depends only on a single
patient's fields (the groupby operations of lines 94 and 117 group by
the id column), so the embedding is a pure function of one patient
record plus the global configuration constants of lines 21-24.
-/

namespace Longform

/-- Gregorian calendar date to day number (days since 1970-01-01), the
standard civil-from-days conversion used by date libraries. -/
def toDays (y m d : Nat) : Int :=
  let yy := if m ≤ 2 then y - 1 else y
  let era := yy / 400
  let yoe := yy - era * 400
  let mp := (m + 9) % 12
  let doy := (153 * mp + 2) / 5 + d - 1
  let doe := yoe * 365 + yoe / 4 - yoe / 100 + doy
  ((era * 146097 + doe : Nat) : Int) - 719468

/-- The global constants of lines 21-24: NUM_DAYS (period length in days),
MAX_DATE (administrative cutoff), MAX_DAYS (maximum follow-up days),
num_days_censor (grace period in days). -/
structure Config where
  numDays : Int
  maxDate : Int
  maxDays : Int
  numDaysCensor : Int

/-- The configuration hard-coded in the script (lines 21-24). -/
def srcConfig : Config :=
  { numDays := 30, maxDate := toDays 2020 10 1, maxDays := 360 * 6, numDaysCensor := 30 }

/-- One input row (lines 29-31); the id column is dropped because all
processing is per patient. -/
structure Patient where
  t0 : Int
  eventdate : Option Int
  maxvisit : Int

/-- Lines 36-39: end_date = min(MAX_DATE, t0 + 360*6 days).  Line 37 writes
the literal 360*6, which equals MAX_DAYS of line 23; the embedding reads the
value from the configuration. -/
def endDate0 (cfg : Config) (p : Patient) : Int :=
  min cfg.maxDate (p.t0 + cfg.maxDays)

/-- Lines 52-54: the censor flag, computed before the event tightening of
line 78, hence from the end date of line 38. -/
def censor (cfg : Config) (p : Patient) : Bool :=
  decide (p.maxvisit < endDate0 cfg p - cfg.numDaysCensor) && decide (p.eventdate = none)

/-- Line 78: end_date = row-wise min(eventdate, end_date); the pandas min
skips NaT, so a null eventdate leaves end_date unchanged. -/
def endDate (cfg : Config) (p : Patient) : Int :=
  match p.eventdate with
  | none => endDate0 cfg p
  | some e => min e (endDate0 cfg p)

/-- The number of dates generated by pd.date_range(t0, end_date + NUM_DAYS,
freq = NUM_DAYS days) of lines 84-86: floor((stop - start) / step) + 1 when
start ≤ stop and the step is positive, else 0. -/
def nRows (cfg : Config) (p : Patient) : Nat :=
  if p.t0 ≤ endDate cfg p + cfg.numDays ∧ 0 < cfg.numDays then
    (endDate cfg p + cfg.numDays - p.t0).toNat / cfg.numDays.toNat + 1
  else 0

/-- The generated period start dates (column t, lines 84-86). -/
def periods (cfg : Config) (p : Patient) : List Int :=
  (List.range (nRows cfg p)).map (fun (k : Nat) => p.t0 + cfg.numDays * (k : Int))

/-- One output row: month (line 94, the cumulative count within the patient,
which equals the generation index), the period start t, and the EVENT and
CENS flags of lines 99-109; EVENT = none models the NaN of line 108. -/
structure Row where
  month : Nat
  t : Int
  EVENT : Option Int
  CENS : Int
  deriving DecidableEq

/-- Lines 99-109 for one row: EVENT and CENS start at 0 (line 99); line 104
sets EVENT to 1 when the event is observed and t is at or past it; lines
108-109 set EVENT to NaN and CENS to 1 when the patient has no event date,
is flagged censor, and t is strictly past maxvisit + num_days_censor.  The
two conditions are disjoint (line 104 needs an event date, lines 108-109
need it null). -/
def mkRow (cfg : Config) (p : Patient) (k : Nat) (t : Int) : Row :=
  match p.eventdate with
  | some e => { month := k, t := t, EVENT := some (if e ≤ t then 1 else 0), CENS := 0 }
  | none =>
    if censor cfg p = true ∧ p.maxvisit + cfg.numDaysCensor < t then
      { month := k, t := t, EVENT := none, CENS := 1 }
    else
      { month := k, t := t, EVENT := some 0, CENS := 0 }

/-- The expanded, flagged rows of one patient (lines 81-109). -/
def rows (cfg : Config) (p : Patient) : List Row :=
  (List.range (nRows cfg p)).map (fun (k : Nat) => mkRow cfg p k (p.t0 + cfg.numDays * (k : Int)))

/-- Lines 112-113: censor_date = maxvisit + num_days_censor for flagged
patients, NaT for the rest. -/
def censorDate (cfg : Config) (p : Patient) : Option Int :=
  if censor cfg p then some (p.maxvisit + cfg.numDaysCensor) else none

/-- The minimum of a list of integers, none when the list is empty (the
pandas Series.min of line 117). -/
def minList : List Int → Option Int
  | [] => none
  | x :: xs =>
    match minList xs with
    | none => some x
    | some m => some (min x m)

/-- Lines 116-118: per patient, the day deltas t - censor_date over all
expanded rows, restricted to the non-negative ones, reduced to their
minimum, then added back to censor_date; NaT when censor_date is NaT or no
delta is non-negative. -/
def censorT (cfg : Config) (p : Patient) : Option Int :=
  match censorDate cfg p with
  | none => none
  | some cd =>
    match minList (((periods cfg p).map (fun t => t - cd)).filter (fun d => decide (0 ≤ d))) with
    | none => none
    | some m => some (cd + m)

/-- Line 119: keep a row when censor_t is NaT or t ≤ censor_t. -/
def finalRows (cfg : Config) (p : Patient) : List Row :=
  (rows cfg p).filter (fun r =>
    match censorT cfg p with
    | none => true
    | some ct => decide (r.t ≤ ct))

/-- Patient A of the spec's concrete scenario. -/
def pA : Patient :=
  { t0 := toDays 2018 1 1, eventdate := some (toDays 2018 3 15), maxvisit := toDays 2018 3 10 }

/-- Patient B of the spec's concrete scenario (no event, early last visit). -/
def pB : Patient :=
  { t0 := toDays 2019 1 1, eventdate := none, maxvisit := toDays 2019 2 1 }

/-- A censoring candidate whose censor date falls exactly on the period-1
boundary. -/
def pC1 : Patient :=
  { t0 := toDays 2018 1 1, eventdate := none, maxvisit := toDays 2018 1 1 }

/-- A patient whose origin date lies after the administrative cutoff. -/
def pC9 : Patient :=
  { t0 := toDays 2021 1 1, eventdate := none, maxvisit := toDays 2021 1 1 }

/-! Helper lemmas about the embedded operations. -/

theorem minList_mem : ∀ {l : List Int} {m : Int}, minList l = some m → m ∈ l := by
  intro l
  induction l with
  | nil => intro m h; simp [minList] at h
  | cons x xs ih =>
    intro m h
    unfold minList at h
    cases hxs : minList xs with
    | none => rw [hxs] at h; simp at h; simp [h]
    | some m2 =>
      rw [hxs] at h
      simp at h
      rcases min_cases x m2 with ⟨hmin, -⟩ | ⟨hmin, -⟩
      · rw [hmin] at h; simp [h]
      · rw [hmin] at h; subst h; exact List.mem_cons_of_mem _ (ih hxs)

theorem minList_isSome : ∀ {l : List Int} {x : Int}, x ∈ l → ∃ m, minList l = some m := by
  intro l x h
  cases l with
  | nil => simp at h
  | cons a as =>
    unfold minList
    cases minList as with
    | none => exact ⟨a, rfl⟩
    | some m2 => exact ⟨min a m2, rfl⟩

theorem minList_le : ∀ {l : List Int} {m : Int}, minList l = some m → ∀ x ∈ l, m ≤ x := by
  intro l
  induction l with
  | nil => intro m h; simp [minList] at h
  | cons a as ih =>
    intro m h y hy
    unfold minList at h
    rcases List.mem_cons.mp hy with rfl | hy2
    · cases hxs : minList as with
      | none => rw [hxs] at h; simp at h; omega
      | some m2 => rw [hxs] at h; simp at h; subst h; exact min_le_left _ _
    · cases hxs : minList as with
      | none =>
        exfalso
        obtain ⟨m2, hm2⟩ := minList_isSome hy2
        rw [hxs] at hm2
        cases hm2
      | some m2 =>
        rw [hxs] at h
        simp at h
        subst h
        exact le_trans (min_le_right _ _) (ih hxs y hy2)

theorem censor_eventdate {cfg : Config} {p : Patient} (h : censor cfg p = true) :
    p.eventdate = none := by
  unfold censor at h
  simp only [Bool.and_eq_true, decide_eq_true_eq] at h
  exact h.2

theorem censor_iff {cfg : Config} {p : Patient} :
    censor cfg p = true ↔
      p.maxvisit < endDate0 cfg p - cfg.numDaysCensor ∧ p.eventdate = none := by
  unfold censor
  simp [Bool.and_eq_true, decide_eq_true_eq]

theorem mem_periods {cfg : Config} {p : Patient} {x : Int} :
    x ∈ periods cfg p ↔ ∃ k, k < nRows cfg p ∧ p.t0 + cfg.numDays * (k : Int) = x := by
  unfold periods
  constructor
  · intro h
    obtain ⟨k, hk, hx⟩ := List.mem_map.mp h
    exact ⟨k, List.mem_range.mp hk, hx⟩
  · rintro ⟨k, hk, hx⟩
    exact List.mem_map.mpr ⟨k, List.mem_range.mpr hk, hx⟩

theorem mem_rows {cfg : Config} {p : Patient} {r : Row} :
    r ∈ rows cfg p ↔
      ∃ k, k < nRows cfg p ∧ mkRow cfg p k (p.t0 + cfg.numDays * (k : Int)) = r := by
  unfold rows
  constructor
  · intro h
    obtain ⟨k, hk, hx⟩ := List.mem_map.mp h
    exact ⟨k, List.mem_range.mp hk, hx⟩
  · rintro ⟨k, hk, hx⟩
    exact List.mem_map.mpr ⟨k, List.mem_range.mpr hk, hx⟩

theorem mkRow_month (cfg : Config) (p : Patient) (k : Nat) (t : Int) :
    (mkRow cfg p k t).month = k := by
  unfold mkRow
  cases p.eventdate with
  | none => dsimp only; split <;> rfl
  | some e => rfl

theorem mkRow_t (cfg : Config) (p : Patient) (k : Nat) (t : Int) :
    (mkRow cfg p k t).t = t := by
  unfold mkRow
  cases p.eventdate with
  | none => dsimp only; split <;> rfl
  | some e => rfl

theorem mkRow_CENS_eq_one_iff (cfg : Config) (p : Patient) (k : Nat) (t : Int) :
    (mkRow cfg p k t).CENS = 1 ↔
      censor cfg p = true ∧ p.maxvisit + cfg.numDaysCensor < t := by
  unfold mkRow
  cases h : p.eventdate with
  | none =>
    dsimp only
    by_cases hcond : censor cfg p = true ∧ p.maxvisit + cfg.numDaysCensor < t
    · rw [if_pos hcond]
      simp [hcond]
    · rw [if_neg hcond]
      simp only [hcond, iff_false]
      intro h0
      exact absurd h0 (by norm_num)
  | some e =>
    dsimp only
    constructor
    · intro h0; exact absurd h0 (by norm_num)
    · rintro ⟨hc, -⟩
      exact absurd (censor_eventdate hc) (by simp [h])

theorem mkRow_CENS_cases (cfg : Config) (p : Patient) (k : Nat) (t : Int) :
    (mkRow cfg p k t).CENS = 0 ∨ (mkRow cfg p k t).CENS = 1 := by
  unfold mkRow
  cases p.eventdate with
  | none => dsimp only; split <;> simp
  | some e => simp

theorem mkRow_some_CENS (cfg : Config) (p : Patient) (k : Nat) (t : Int) (e : Int)
    (h : p.eventdate = some e) : (mkRow cfg p k t).CENS = 0 := by
  unfold mkRow
  rw [h]

theorem mkRow_EVENT_at_boundary (cfg : Config) (p : Patient) (k : Nat) (t : Int)
    (hc : censor cfg p = true) (ht : ¬ p.maxvisit + cfg.numDaysCensor < t) :
    (mkRow cfg p k t).EVENT = some 0 ∧ (mkRow cfg p k t).CENS = 0 := by
  unfold mkRow
  rw [censor_eventdate hc]
  dsimp only
  rw [if_neg (fun hcond => ht hcond.2)]
  exact ⟨rfl, rfl⟩

theorem nRows_pos {cfg : Config} {p : Patient} (hL : 0 < cfg.numDays)
    (h : p.t0 ≤ endDate cfg p) : 0 < nRows cfg p := by
  unfold nRows
  rw [if_pos ⟨by omega, hL⟩]
  exact Nat.succ_pos _

theorem censorT_spec {cfg : Config} {p : Patient} {cd : Int}
    (hcd : censorDate cfg p = some cd) {w : Int} (hw : w ∈ periods cfg p) (hcw : cd ≤ w) :
    ∃ ct, censorT cfg p = some ct ∧ ct ∈ periods cfg p ∧ cd ≤ ct ∧
      ∀ t ∈ periods cfg p, cd ≤ t → ct ≤ t := by
  have hmemf : (w - cd) ∈
      ((periods cfg p).map (fun t => t - cd)).filter (fun d => decide (0 ≤ d)) := by
    rw [List.mem_filter]
    exact ⟨List.mem_map_of_mem _ hw, by simp; omega⟩
  obtain ⟨m, hm⟩ := minList_isSome hmemf
  have hceq : censorT cfg p = some (cd + m) := by
    unfold censorT
    rw [hcd]
    dsimp only
    rw [hm]
  have hm_mem := minList_mem hm
  rw [List.mem_filter] at hm_mem
  obtain ⟨hm_map, hm_pos⟩ := hm_mem
  simp only [decide_eq_true_eq] at hm_pos
  obtain ⟨t2, ht2, ht2eq⟩ := List.mem_map.mp hm_map
  refine ⟨cd + m, hceq, ?_, by omega, ?_⟩
  · have : cd + m = t2 := by omega
    rw [this]; exact ht2
  · intro t ht hcdt
    have hle := minList_le hm (t - cd) (by
      rw [List.mem_filter]
      exact ⟨List.mem_map_of_mem _ ht, by simp; omega⟩)
    omega

theorem mem_finalRows {cfg : Config} {p : Patient} {r : Row} :
    r ∈ finalRows cfg p ↔
      r ∈ rows cfg p ∧ ∀ ct, censorT cfg p = some ct → r.t ≤ ct := by
  unfold finalRows
  cases h : censorT cfg p with
  | none => simp [List.mem_filter]
  | some ct => simp [List.mem_filter]

/-! Claim theorems. -/

/-- C4: for every patient, the derived end_date equals
min(administrative_cutoff, origin_date + max_followup_days), further reduced
to the minimum with event_date when event_date is non-null; when event_date
is null the tightening step of line 78 leaves end_date unchanged. -/
theorem C4_endDate (cfg : Config) (p : Patient) :
    (p.eventdate = none → endDate cfg p = min cfg.maxDate (p.t0 + cfg.maxDays)) ∧
    (∀ e, p.eventdate = some e →
      endDate cfg p = min (min cfg.maxDate (p.t0 + cfg.maxDays)) e) := by
  unfold endDate endDate0
  constructor
  · intro h
    rw [h]
  · intro e h
    rw [h]
    dsimp only
    exact min_comm _ _

/-- Witness for C4 at the concrete scenario patients: pB has no event date,
pA has one. -/
theorem C4_endDate_witness :
    endDate srcConfig pB = min srcConfig.maxDate (pB.t0 + srcConfig.maxDays) ∧
    endDate srcConfig pA =
      min (min srcConfig.maxDate (pA.t0 + srcConfig.maxDays)) (toDays 2018 3 15) :=
  ⟨(C4_endDate srcConfig pB).1 rfl, (C4_endDate srcConfig pA).2 (toDays 2018 3 15) rfl⟩

/-- C5: the censoring-candidate flag is true iff event_date is null and
last_observation_date is strictly earlier than end_date minus
grace_period_days, where end_date is the fully derived per-patient end of
follow-up.  The code computes the flag (lines 52-54) from the end date of
line 38, before the event tightening of line 78, but the two agree: the
tightening changes end_date only when event_date is non-null, in which case
the flag is false either way. -/
theorem C5_censor_iff (cfg : Config) (p : Patient) :
    censor cfg p = true ↔
      p.eventdate = none ∧ p.maxvisit < endDate cfg p - cfg.numDaysCensor := by
  rw [censor_iff]
  unfold endDate
  cases h : p.eventdate with
  | none =>
    dsimp only
    tauto
  | some e => simp

/-- C7: a patient with a non-null event_date has no CENS = 1 row in the
final panel. -/
theorem C7_event_no_CENS (cfg : Config) (p : Patient) (e : Int) (r : Row)
    (he : p.eventdate = some e) (hr : r ∈ finalRows cfg p) : r.CENS = 0 := by
  obtain ⟨hrow, -⟩ := mem_finalRows.mp hr
  obtain ⟨k, -, hk⟩ := mem_rows.mp hrow
  rw [← hk]
  exact mkRow_some_CENS cfg p k _ e he

/-- Witness for C7: the first final-panel row of patient A (who has an
event date) has CENS = 0. -/
theorem C7_witness :
    Row.CENS { month := 0, t := toDays 2018 1 1, EVENT := some 0, CENS := 0 } = 0 :=
  C7_event_no_CENS srcConfig pA (toDays 2018 3 15)
    { month := 0, t := toDays 2018 1 1, EVENT := some 0, CENS := 0 } rfl (by decide)

/-- C9 (counterexample): the claim says end_date is at least origin_date for
every patient, but a patient whose origin date lies after the administrative
cutoff gets end_date = cutoff, strictly before origin.  Patient pC9 has
origin 2021-01-01, after the cutoff 2020-10-01. -/
theorem C9_counterexample : endDate srcConfig pC9 < pC9.t0 := by decide

/-- C9 (amended): end_date is at most the administrative cutoff for every
patient, unconditionally; and end_date is at least origin_date provided
origin_date is at most the cutoff, the maximum follow-up is non-negative,
and any non-null event_date is not before origin_date. -/
theorem C9_amended (cfg : Config) (p : Patient) :
    endDate cfg p ≤ cfg.maxDate ∧
    (p.t0 ≤ cfg.maxDate → 0 ≤ cfg.maxDays →
      (∀ e, p.eventdate = some e → p.t0 ≤ e) → p.t0 ≤ endDate cfg p) := by
  unfold endDate endDate0
  cases h : p.eventdate with
  | none =>
    dsimp only
    refine ⟨min_le_left _ _, ?_⟩
    intro hc hd he
    exact le_min hc (by omega)
  | some e =>
    dsimp only
    refine ⟨le_trans (min_le_right _ _) (min_le_left _ _), ?_⟩
    intro hc hd he
    exact le_min (he e rfl) (le_min hc (by omega))

/-- Witness for C9 (amended) at patient B: the cutoff bound, and the origin
bound with its hypotheses discharged. -/
theorem C9_witness :
    endDate srcConfig pB ≤ srcConfig.maxDate ∧ pB.t0 ≤ endDate srcConfig pB :=
  ⟨(C9_amended srcConfig pB).1,
   (C9_amended srcConfig pB).2 (by decide) (by decide) (fun e h => by simp [pB] at h)⟩

set_option maxRecDepth 100000 in
/-- C1 (counterexample): the claim says CENS = 1 exactly when the period
start is at or after the censoring threshold, but the code (line 109) uses a
strict comparison.  Patient pC1 is a censoring candidate with no event whose
threshold maxvisit + 30 = 2018-01-31 falls exactly on the period-1 boundary:
that final-panel row is at the threshold yet carries CENS = 0. -/
theorem C1_counterexample :
    censor srcConfig pC1 = true ∧ pC1.eventdate = none ∧
    ({ month := 1, t := toDays 2018 1 31, EVENT := some 0, CENS := 0 } : Row) ∈
      finalRows srcConfig pC1 ∧
    pC1.maxvisit + srcConfig.numDaysCensor ≤ toDays 2018 1 31 := by decide

/-- C1 (amended): on every expanded row, CENS = 1 iff the patient is a
censoring candidate with no observed event and the row's period start is
strictly after the censoring threshold maxvisit + grace; every other row has
CENS = 0. -/
theorem C1_amended (cfg : Config) (p : Patient) (r : Row) (hr : r ∈ rows cfg p) :
    (r.CENS = 1 ↔
      censor cfg p = true ∧ p.eventdate = none ∧ p.maxvisit + cfg.numDaysCensor < r.t) ∧
    (¬ r.CENS = 1 → r.CENS = 0) := by
  obtain ⟨k, -, hk⟩ := mem_rows.mp hr
  subst hk
  constructor
  · rw [mkRow_CENS_eq_one_iff]
    constructor
    · rintro ⟨h1, h2⟩
      exact ⟨h1, censor_eventdate h1, by rwa [mkRow_t]⟩
    · rintro ⟨h1, -, h3⟩
      exact ⟨h1, by rwa [mkRow_t] at h3⟩
  · intro h1
    rcases mkRow_CENS_cases cfg p k _ with h | h
    · exact h
    · exact absurd h h1

set_option maxRecDepth 100000 in
/-- Witness for C1 (amended): the period-2 row of pC1, strictly past the
threshold, has CENS = 1. -/
theorem C1_witness :
    Row.CENS { month := 2, t := toDays 2018 3 2, EVENT := none, CENS := 1 } = 1 :=
  ((C1_amended srcConfig pC1
    { month := 2, t := toDays 2018 3 2, EVENT := none, CENS := 1 }
    (by decide)).1).mpr ⟨by decide, rfl, by decide⟩

/-- One past the floor of D / L overshoots D: D < L * (D / L) + L. -/
theorem div_overshoot (D L : Nat) (hL : 0 < L) :
    (D : Int) < (L : Int) * ((D / L : Nat) : Int) + (L : Int) := by
  have h2 : D < L * (D / L) + L := by
    have hdm := Nat.div_add_mod D L
    have hmod := Nat.mod_lt D hL
    generalize hM : L * (D / L) = M at hdm ⊢
    generalize hR : D % L = R at hdm hmod
    omega
  exact_mod_cast h2

/-- The last generated period start strictly exceeds end_date: date_range
runs to end_date + NUM_DAYS (line 85), so the largest generated index
overshoots the end date by at most one period. -/
theorem last_period_exceeds {cfg : Config} {p : Patient} (hL : 0 < cfg.numDays)
    (hend : p.t0 ≤ endDate cfg p) :
    ∃ t ∈ periods cfg p, endDate cfg p < t := by
  have hcond : p.t0 ≤ endDate cfg p + cfg.numDays ∧ 0 < cfg.numDays := ⟨by omega, hL⟩
  have hval : nRows cfg p =
      (endDate cfg p + cfg.numDays - p.t0).toNat / cfg.numDays.toNat + 1 := by
    unfold nRows
    rw [if_pos hcond]
  refine ⟨p.t0 + cfg.numDays *
      (((endDate cfg p + cfg.numDays - p.t0).toNat / cfg.numDays.toNat : Nat) : Int),
    mem_periods.mpr ⟨(endDate cfg p + cfg.numDays - p.t0).toNat / cfg.numDays.toNat,
      by rw [hval]; exact Nat.lt_succ_self _, rfl⟩, ?_⟩
  have hD : ((endDate cfg p + cfg.numDays - p.t0).toNat : Int)
      = endDate cfg p + cfg.numDays - p.t0 := Int.toNat_of_nonneg (by omega)
  have hLc : (cfg.numDays.toNat : Int) = cfg.numDays := Int.toNat_of_nonneg (by omega)
  have hover := div_overshoot (endDate cfg p + cfg.numDays - p.t0).toNat cfg.numDays.toNat
    (by omega)
  rw [hD, hLc] at hover
  linarith [hover]

/-- C2: for a patient with a non-null censor_date and at least one generated
period at or after it, censor_t is the earliest generated period start whose
delta from censor_date is non-negative, and the final panel keeps exactly
the rows with period start at most censor_t; a patient with NaT censor_date
keeps all expanded rows unchanged. -/
theorem C2_truncation (cfg : Config) (p : Patient) :
    (∀ cd, censorDate cfg p = some cd → (∃ w ∈ periods cfg p, cd ≤ w) →
      ∃ ct, censorT cfg p = some ct ∧ ct ∈ periods cfg p ∧ cd ≤ ct ∧
        (∀ t ∈ periods cfg p, cd ≤ t → ct ≤ t) ∧
        finalRows cfg p = (rows cfg p).filter (fun r => decide (r.t ≤ ct))) ∧
    (censorDate cfg p = none → finalRows cfg p = rows cfg p) := by
  constructor
  · rintro cd hcd ⟨w, hw, hcw⟩
    obtain ⟨ct, hct, hmem, hle, hmin⟩ := censorT_spec hcd hw hcw
    refine ⟨ct, hct, hmem, hle, hmin, ?_⟩
    unfold finalRows
    rw [hct]
  · intro hnone
    have hct : censorT cfg p = none := by
      unfold censorT
      rw [hnone]
    unfold finalRows
    rw [hct]
    exact List.filter_true _

set_option maxRecDepth 100000 in
/-- Witness for C2 at patient B: the censor date 2019-03-03 has a period at
or after it, so censor_t is defined. -/
theorem C2_witness : (censorT srcConfig pB).isSome = true := by
  obtain ⟨ct, hct, -⟩ :=
    (C2_truncation srcConfig pB).1 (toDays 2019 3 3) (by decide)
      ⟨toDays 2019 4 1, by decide, by decide⟩
  rw [hct]
  rfl

/-- C3: for a patient (one input row) whose end_date is not before the
origin, the expanded rows have period_start = origin + index * period
length with indices contiguous from 0 in generation order, the boundary
sequence starts at the origin, and some generated period start strictly
exceeds end_date. -/
theorem C3_expansion (cfg : Config) (p : Patient) (hL : 0 < cfg.numDays)
    (hend : p.t0 ≤ endDate cfg p) :
    ((rows cfg p).map Row.month = List.range ((rows cfg p).length)) ∧
    (∀ r ∈ rows cfg p, r.t = p.t0 + cfg.numDays * (r.month : Int)) ∧
    (periods cfg p).head? = some p.t0 ∧
    (∃ t ∈ periods cfg p, endDate cfg p < t) := by
  refine ⟨?_, ?_, ?_, last_period_exceeds hL hend⟩
  · unfold rows
    rw [List.map_map, List.length_map, List.length_range]
    have hcomp : (Row.month ∘ fun (k : Nat) =>
        mkRow cfg p k (p.t0 + cfg.numDays * (k : Int))) = id := by
      funext k
      simp [Function.comp, mkRow_month]
    rw [hcomp, List.map_id]
  · intro r hr
    obtain ⟨k, -, hk⟩ := mem_rows.mp hr
    subst hk
    rw [mkRow_t, mkRow_month]
  · have hpos : 0 < nRows cfg p := nRows_pos hL hend
    unfold periods
    obtain ⟨m, hm⟩ : ∃ m, nRows cfg p = m + 1 := ⟨nRows cfg p - 1, by omega⟩
    rw [hm, List.range_succ_eq_map]
    simp

/-- Witness for C3 at patient B. -/
theorem C3_witness : (periods srcConfig pB).head? = some pB.t0 :=
  (C3_expansion srcConfig pB (by decide) (by decide)).2.2.1

/-- C6: in the final panel, a CENS = 1 row has the largest period index of
its patient, and is the only CENS = 1 row. -/
theorem C6_terminal (cfg : Config) (p : Patient) (hL : 0 < cfg.numDays) (r rr : Row)
    (hr : r ∈ finalRows cfg p) (hrr : rr ∈ finalRows cfg p) (hc : r.CENS = 1) :
    rr.month ≤ r.month ∧ (rr.CENS = 1 → rr = r) := by
  obtain ⟨hr_rows, hr_keep⟩ := mem_finalRows.mp hr
  obtain ⟨hrr_rows, hrr_keep⟩ := mem_finalRows.mp hrr
  obtain ⟨k, hk, hkr⟩ := mem_rows.mp hr_rows
  obtain ⟨k2, hk2, hk2r⟩ := mem_rows.mp hrr_rows
  subst hkr
  subst hk2r
  rw [mkRow_CENS_eq_one_iff] at hc
  obtain ⟨hcen, hthr⟩ := hc
  have hcd : censorDate cfg p = some (p.maxvisit + cfg.numDaysCensor) := by
    unfold censorDate
    rw [if_pos hcen]
  have hkmem : (p.t0 + cfg.numDays * (k : Int)) ∈ periods cfg p :=
    mem_periods.mpr ⟨k, hk, rfl⟩
  obtain ⟨ct, hct, hctmem, hctge, hctmin⟩ := censorT_spec hcd hkmem (le_of_lt hthr)
  have hkt_le : p.t0 + cfg.numDays * (k : Int) ≤ ct := by
    have h0 := hr_keep ct hct
    rwa [mkRow_t] at h0
  have hct_le : ct ≤ p.t0 + cfg.numDays * (k : Int) := hctmin _ hkmem (le_of_lt hthr)
  have hct_eq : ct = p.t0 + cfg.numDays * (k : Int) := le_antisymm hct_le hkt_le
  have hrr_le : p.t0 + cfg.numDays * (k2 : Int) ≤ ct := by
    have h0 := hrr_keep ct hct
    rwa [mkRow_t] at h0
  have hk2k : (k2 : Int) ≤ (k : Int) := by
    have h3 : cfg.numDays * (k2 : Int) ≤ cfg.numDays * (k : Int) := by
      linarith [hrr_le, hct_eq]
    exact le_of_mul_le_mul_left h3 hL
  constructor
  · rw [mkRow_month, mkRow_month]
    exact_mod_cast hk2k
  · intro hc2
    rw [mkRow_CENS_eq_one_iff] at hc2
    obtain ⟨-, hthr2⟩ := hc2
    have hmem2 : (p.t0 + cfg.numDays * (k2 : Int)) ∈ periods cfg p :=
      mem_periods.mpr ⟨k2, hk2, rfl⟩
    have h1 : ct ≤ p.t0 + cfg.numDays * (k2 : Int) := hctmin _ hmem2 (le_of_lt hthr2)
    have h2 : (k : Int) ≤ (k2 : Int) := by
      have h3 : cfg.numDays * (k : Int) ≤ cfg.numDays * (k2 : Int) := by
        linarith [h1, hct_eq]
      exact le_of_mul_le_mul_left h3 hL
    have hkk : k = k2 := by exact_mod_cast le_antisymm h2 hk2k
    subst hkk
    rfl

set_option maxRecDepth 100000 in
/-- Witness for C6: in patient B's final panel, the CENS = 1 row at period
index 3 has a period index at least that of the index-0 row. -/
theorem C6_witness :
    Row.month { month := 0, t := toDays 2019 1 1, EVENT := some 0, CENS := 0 } ≤
      Row.month { month := 3, t := toDays 2019 4 1, EVENT := none, CENS := 1 } :=
  (C6_terminal srcConfig pB (by decide)
    { month := 3, t := toDays 2019 4 1, EVENT := none, CENS := 1 }
    { month := 0, t := toDays 2019 1 1, EVENT := some 0, CENS := 0 }
    (by decide) (by decide) rfl).1

set_option maxRecDepth 100000 in
/-- C8 (counterexample): the claimed final panel for patient A (rows 0 and 1
only, EVENT = 1 at index 1) is not what the pipeline produces. -/
theorem C8_counterexample :
    (finalRows srcConfig pA).map (fun r => (r.month, r.t, r.EVENT, r.CENS)) ≠
      [(0, toDays 2018 1 1, some 0, 0), (1, toDays 2018 1 31, some 1, 0)] := by decide

set_option maxRecDepth 100000 in
/-- C8 (amended): patient A (origin 2018-01-01, event 2018-03-15, last
observation 2018-03-10, with the script's constants) yields exactly the
rows with period indices 0, 1, 2, 3 and period starts 2018-01-01,
2018-01-31, 2018-03-02, 2018-04-01; EVENT = 0 at indices 0 to 2 and
EVENT = 1 at index 3, and CENS = 0 on every row.  The patient is no
censoring candidate, so no truncation occurs and the panel extends one
period past the event-tightened end date 2018-03-15. -/
theorem C8_amended :
    (finalRows srcConfig pA).map (fun r => (r.month, r.t, r.EVENT, r.CENS)) =
      [(0, toDays 2018 1 1, some 0, 0),
       (1, toDays 2018 1 31, some 0, 0),
       (2, toDays 2018 3 2, some 0, 0),
       (3, toDays 2018 4 1, some 1, 0)] := by decide

/-- C10: for a censoring candidate whose censor date falls exactly on a
generated period boundary, censor_t equals the censor date, the final panel
is truncated at that boundary, every retained row has CENS = 0, and the
retained terminal row at the boundary has CENS = 0 and EVENT = 0. -/
theorem C10_boundary (cfg : Config) (p : Patient) (hcand : censor cfg p = true)
    (hb : p.maxvisit + cfg.numDaysCensor ∈ periods cfg p) :
    censorT cfg p = some (p.maxvisit + cfg.numDaysCensor) ∧
    (∀ r ∈ finalRows cfg p, r.CENS = 0 ∧ r.t ≤ p.maxvisit + cfg.numDaysCensor) ∧
    (∃ r ∈ finalRows cfg p, r.t = p.maxvisit + cfg.numDaysCensor ∧
      r.CENS = 0 ∧ r.EVENT = some 0) := by
  have hcd : censorDate cfg p = some (p.maxvisit + cfg.numDaysCensor) := by
    unfold censorDate
    rw [if_pos hcand]
  obtain ⟨ct, hct, hctmem, hctge, hctmin⟩ := censorT_spec hcd hb (le_refl _)
  have hctle : ct ≤ p.maxvisit + cfg.numDaysCensor := hctmin _ hb (le_refl _)
  have hcteq : ct = p.maxvisit + cfg.numDaysCensor := le_antisymm hctle hctge
  subst hcteq
  refine ⟨hct, ?_, ?_⟩
  · intro r hrf
    obtain ⟨hr_rows, hr_keep⟩ := mem_finalRows.mp hrf
    have hle := hr_keep _ hct
    refine ⟨?_, hle⟩
    obtain ⟨k, hk, hkr⟩ := mem_rows.mp hr_rows
    subst hkr
    rcases mkRow_CENS_cases cfg p k _ with h | h
    · exact h
    · exfalso
      rw [mkRow_CENS_eq_one_iff] at h
      rw [mkRow_t] at hle
      exact absurd hle (not_le.mpr h.2)
  · obtain ⟨k, hk, hkeq⟩ := mem_periods.mp hb
    have hnot : ¬ p.maxvisit + cfg.numDaysCensor < p.t0 + cfg.numDays * (k : Int) := by
      rw [hkeq]
      exact lt_irrefl _
    obtain ⟨hev, hcens⟩ := mkRow_EVENT_at_boundary cfg p k _ hcand hnot
    refine ⟨mkRow cfg p k (p.t0 + cfg.numDays * (k : Int)), ?_, ?_, hcens, hev⟩
    · rw [mem_finalRows]
      refine ⟨mem_rows.mpr ⟨k, hk, rfl⟩, ?_⟩
      intro ct2 hct2
      have hinj : p.maxvisit + cfg.numDaysCensor = ct2 :=
        Option.some.inj (hct.symm.trans hct2)
      rw [mkRow_t, hkeq]
      exact le_of_eq hinj
    · rw [mkRow_t]
      exact hkeq

set_option maxRecDepth 100000 in
/-- Witness for C10 at pC1, whose censor date 2018-01-31 is the period-1
boundary. -/
theorem C10_witness :
    censorT srcConfig pC1 = some (pC1.maxvisit + srcConfig.numDaysCensor) :=
  (C10_boundary srcConfig pC1 (by decide) (by decide)).1

end Longform
